import Mathlib

/-
Verification of the libriscv system-call layer (src/lib/libriscv/system_calls.cpp)
against its natural-language specification.

The handlers below are shallow embeddings of the C++ syscall handlers, translated
function by function from system_calls.cpp.  The machine is specialised to W = 8
(RV64): guest addresses are natural numbers taken modulo 2^64 where the C++
address_type<8> arithmetic wraps.  Host-side effects (write(2), openat(2), ...)
are parameters ("oracles") of the handlers, and the host calls actually performed
are recorded in an event list so that "the handler did not perform the host call"
is expressible.  The paged-memory primitives used by the handlers
(gather_buffers_from_range, copy_from_guest, ...) are not part of the three
source files; they are modelled from the specification, as marked.
-/

namespace LibRiscv

/-- Address modulus of the RV64 machine: address_type<8> arithmetic wraps mod 2^64. -/
def MOD : Nat := 2 ^ 64

/-- Modelled from the spec: Page::size() is not under src/; the spec recommends
4 KiB pages, and the handlers (mmap and friends) use Page::size() only through
alignment checks. -/
def pageSize : Nat := 4096

def EPERM : Int := 1
def EBADF : Int := 9
def ENOMEM : Int := 12
def EINVAL : Int := 22
def ENOSYS : Int := 38

/-- Host calls a handler can perform.  Recording them in the machine state lets a
theorem state that a rejected request performed no host call. -/
inductive HostCall where
  | openat (dirfd : Int) (path : List Nat) (flags : Int)
  | ioctl (req : Nat)
  | readlinkat (path : List Nat) (bufsize : Nat)
  | statx (path : List Nat)
deriving DecidableEq, Repr

/-- The machine state visible to the system-call handlers of system_calls.cpp:
guest memory (byte-addressable, `none` = unmapped page), the print sink that
receives stdout/stderr bytes, the syscall result register a0 (signed view),
the optional file-descriptor table with its policy flags and filter callbacks,
the heap/mmap bookkeeping of Memory<W>, and the host calls performed so far. -/
structure MachineState where
  mem : Nat → Option Nat
  sink : List Nat
  result : Int
  hasFds : Bool
  permitFileWrite : Bool
  permitFilesystem : Bool
  filterOpen : Option (List Nat → Bool)
  filterIoctl : Option (Nat → Bool)
  filterStat : Option (List Nat → Bool)
  heapBase : Nat
  brkMax : Nat
  mmapNext : Nat
  hostEvents : List HostCall

/-- Modelled from the spec: a guest range is mapped (readable) when every byte of
it is backed by a mapped page; in the byte-granular memory model that is a check
on each address of the range. -/
def rangeMapped (mem : Nat → Option Nat) (addr len : Nat) : Bool :=
  (List.range len).all (fun i => (mem (addr + i)).isSome)

/-- The bytes of the guest range [addr, addr+len), in increasing address order
(unmapped bytes read as 0; gather only uses this on fully mapped ranges). -/
def rangeBytes (mem : Nat → Option Nat) (addr len : Nat) : List Nat :=
  (List.range len).map (fun i => (mem (addr + i)).getD 0)

/-- Splits the guest range [addr, addr+len) at page boundaries, producing the
(start, length) slices a gather operation returns, ordered by increasing guest
address.  The fuel argument makes the recursion structural; fuel ≥ len always
suffices because every step consumes at least one byte. -/
def pageSlicesAux : Nat → Nat → Nat → List (Nat × Nat)
  | 0, _, _ => []
  | fuel + 1, addr, len =>
    if len = 0 then []
    else
      let n := min len (pageSize - addr % pageSize)
      (addr, n) :: pageSlicesAux fuel (addr + n) (len - n)

def pageSlices (addr len : Nat) : List (Nat × Nat) :=
  pageSlicesAux len addr len

/-- Modelled from the spec: `gather_buffers_from_range` (paged memory, not under
src/) resolves a guest range into host slices, one per backing page, ordered by
increasing guest address, whose concatenation reproduces the bytes of the range;
it returns 0 slices if any page in the range is unmapped.  The max_slices cap the
callers pass (16/64/256) is not modelled: per the spec's gather-correctness law
the returned slices reproduce the whole mapped range. -/
def gather (mem : Nat → Option Nat) (addr len : Nat) : List (Nat × Nat) :=
  if rangeMapped mem addr len then pageSlices addr len else []

/-- Modelled from the spec: `copy_from_guest` of a PATH_MAX C string.  The C++
copies PATH_MAX-1 = 4095 bytes, forces a terminator, and the host call receives
the bytes up to the first NUL. -/
def guestPath (mem : Nat → Option Nat) (g : Nat) : List Nat :=
  ((List.range 4095).map (fun i => (mem (g + i)).getD 0)).takeWhile (fun b => b ≠ 0)

/-- Modelled from the spec: little-endian load of n bytes of guest memory, used
by `memcpy_out` when the writev handler copies the guest iovec array. -/
def readLE (mem : Nat → Option Nat) (addr n : Nat) : Nat :=
  (List.range n).foldl (fun acc i => acc + (mem (addr + i)).getD 0 * 256 ^ i) 0

/-- Modelled from the spec: writing host-supplied bytes into the gathered slices
of guest memory (used by read).  `supply a = some b` means the host/stdin source
supplied byte b for guest address a; addresses the host did not reach keep their
old contents. -/
def writeSupplied (mem supply : Nat → Option Nat) (slices : List (Nat × Nat)) :
    Nat → Option Nat :=
  fun a =>
    if slices.any (fun s => decide (s.1 ≤ a) && decide (a < s.1 + s.2)) then
      match supply a with
      | some b => some b
      | none => mem a
    else mem a

/-- Embeds `machine.set_result_or_error(rc)` (spec §4.4): a negative host return
becomes the negated errno (herr is the host's errno value), a non-negative one
is passed through. -/
def set_result_or_error (herr : Int) (rc : Int) : Int :=
  if rc < 0 then -herr else rc

/-- Embeds the per-slice host-write loop of `syscall_write` (fd ≥ 3 path):
`hw i` is the return value of the host write(2) for slice i and `errnoOf i` the
errno it left; partial writes stop the loop, errors set the result via
set_result_or_error. -/
def hostWriteLoop (hw : Nat → Int) (errnoOf : Nat → Int) :
    List (Nat × Nat) → Nat → Nat → Int
  | [], _, bytes => Int.ofNat bytes
  | s :: rest, i, bytes =>
    let res := hw i
    if 0 ≤ res then
      if res.toNat < s.2 then Int.ofNat (bytes + res.toNat)
      else hostWriteLoop hw errnoOf rest (i + 1) (bytes + res.toNat)
    else set_result_or_error (errnoOf i) res

/-- Embeds `syscall_write` (system_calls.cpp, syscall 64).  fd 1/2: gather the
guest range and print every slice to the machine's sink, result = len.  Otherwise,
with an fd table present and permit_file_write: host write per slice honouring
partial writes.  Otherwise -EBADF. -/
def syscall_write (hw : Nat → Int) (errnoOf : Nat → Int) (m : MachineState)
    (fd : Int) (addr len : Nat) : MachineState :=
  if fd = 1 ∨ fd = 2 then
    let slices := gather m.mem addr len
    { m with
      sink := m.sink ++ (slices.map (fun s => rangeBytes m.mem s.1 s.2)).flatten,
      result := Int.ofNat len }
  else if m.hasFds && m.permitFileWrite then
    let slices := gather m.mem addr len
    { m with result := hostWriteLoop hw errnoOf slices 0 0 }
  else
    { m with result := -EBADF }

/-- Embeds `syscall_read` (system_calls.cpp, syscall 63).  fd 0: gather the guest
range and let the machine's stdin source fill the slices; the result is set to
len regardless of how much was supplied.  Any other fd with an fd table present:
gather and host read into the slices, result again len.  Otherwise -EBADF. -/
def syscall_read (supply : Nat → Option Nat) (m : MachineState)
    (fd : Int) (addr len : Nat) : MachineState :=
  if fd = 0 then
    let slices := gather m.mem addr len
    { m with mem := writeSupplied m.mem supply slices, result := Int.ofNat len }
  else if m.hasFds then
    let slices := gather m.mem addr len
    { m with mem := writeSupplied m.mem supply slices, result := Int.ofNat len }
  else
    { m with result := -EBADF }

/-- The guest iovec array read by `syscall_writev` via memcpy_out: count entries
of two address_type<8> words (base, len), 16 bytes each for W = 8. -/
def readIovecs (mem : Nat → Option Nat) (iov_g : Nat) (count : Nat) :
    List (Nat × Nat) :=
  (List.range count).map (fun i =>
    (readLE mem (iov_g + 16 * i) 8, readLE mem (iov_g + 16 * i + 8) 8))

/-- Embeds `syscall_writev` (system_calls.cpp, syscall 66).  Counts outside
[0, 256] are rejected with -EINVAL before anything else.  fd 1/2: copy the iovec
array out of guest memory, gather and print each entry, result = sum of the iovec
lengths.  Every other fd falls through to -EBADF — there is no fd ≥ 3 host-write
path in this handler. -/
def syscall_writev (m : MachineState) (fd : Int) (iov_g : Nat) (count : Int) :
    MachineState :=
  if count < 0 ∨ 256 < count then { m with result := -EINVAL }
  else if fd = 1 ∨ fd = 2 then
    let vec := readIovecs m.mem iov_g count.toNat
    let out :=
      (vec.map (fun iov =>
        ((gather m.mem iov.1 iov.2).map (fun s => rangeBytes m.mem s.1 s.2)).flatten)).flatten
    let res := vec.foldl (fun acc iov => acc + Int.ofNat iov.2) 0
    { m with sink := m.sink ++ out, result := res }
  else
    { m with result := -EBADF }

/-- Embeds `syscall_brk` (system_calls.cpp, syscall 214): clamp new_end to
[heap_address, heap_address + BRK_MAX] and return it; the break itself is not
moved and no error is ever produced.  The upper bound is computed in
address_type<8>, hence the modulus. -/
def syscall_brk (m : MachineState) (new_end : Nat) : MachineState :=
  let top := (m.heapBase + m.brkMax) % MOD
  let ne :=
    if top < new_end then top
    else if new_end < m.heapBase then m.heapBase
    else new_end
  { m with result := Int.ofNat ne }

/-- Embeds the mmap handler installed by `add_mman_syscalls` (syscall 222).
Non-page-aligned addr or length fail with -1.  addr = 0 or addr = mmap_next:
return mmap_next and advance it by length.  A non-zero addr below mmap_next
fails with -1.  A hint above mmap_next is returned unchanged. -/
def syscall_mmap (m : MachineState) (addr len : Nat) (prot flags : Int) :
    MachineState :=
  if addr % pageSize ≠ 0 ∨ len % pageSize ≠ 0 then
    { m with result := -1 }
  else if addr = 0 ∨ addr = m.mmapNext then
    { m with result := Int.ofNat m.mmapNext, mmapNext := (m.mmapNext + len) % MOD }
  else if addr < m.mmapNext then
    { m with result := -1 }
  else
    { m with result := Int.ofNat addr }

/-- Embeds the mremap handler installed by `add_mman_syscalls` (syscall 163):
only extending the last mapping in place is supported — old_addr + old_size
(address_type arithmetic) equal to mmap_next moves mmap_next to
old_addr + new_size and returns old_addr; everything else fails with -1. -/
def syscall_mremap (m : MachineState) (old_addr old_size new_size : Nat)
    (flags : Int) : MachineState :=
  if (old_addr + old_size) % MOD = m.mmapNext then
    { m with mmapNext := (old_addr + new_size) % MOD, result := Int.ofNat old_addr }
  else
    { m with result := -1 }

/-- Embeds `syscall_openat` (system_calls.cpp, syscall 56).  hopen is the host
openat(2) return for the copied-out path, herr the errno it left, vfdOf the fd
table's assign.  An installed filter_open that rejects the path short-circuits
to -EPERM before any host call. -/
def syscall_openat (hopen : List Nat → Int) (herr : Int) (vfdOf : Int → Int)
    (m : MachineState) (dirfd : Int) (g_path : Nat) (flags : Int) : MachineState :=
  let path := guestPath m.mem g_path
  let go : MachineState :=
    let res := hopen path
    let m1 := { m with hostEvents := m.hostEvents ++ [HostCall.openat dirfd path flags] }
    if 0 < res then { m1 with result := vfdOf res }
    else { m1 with result := -herr }
  if m.hasFds && m.permitFilesystem then
    match m.filterOpen with
    | some f => if f path then go else { m with result := -EPERM }
    | none => go
  else
    { m with result := -EBADF }

/-- Embeds `syscall_ioctl` (system_calls.cpp, syscall 29).  An installed
filter_ioctl that rejects the request short-circuits to -EPERM before any host
call; otherwise the host ioctl runs and its result goes through
set_result_or_error. -/
def syscall_ioctl (hioctl : Nat → Int) (herr : Int) (m : MachineState)
    (vfd : Int) (req : Nat) : MachineState :=
  let go : MachineState :=
    { m with hostEvents := m.hostEvents ++ [HostCall.ioctl req],
             result := set_result_or_error herr (hioctl req) }
  if m.hasFds then
    match m.filterIoctl with
    | some f => if f req then go else { m with result := -EPERM }
    | none => go
  else
    { m with result := -EBADF }

/-- Modelled from the spec: `copy_to_guest` writes host bytes into guest memory
starting at dst; `data i` is the i-th byte the host produced. -/
def copyToGuest (mem : Nat → Option Nat) (dst : Nat) (data : Nat → Option Nat)
    (n : Nat) : Nat → Option Nat :=
  fun a =>
    if dst ≤ a ∧ a < dst + n then some ((data (a - dst)).getD 0)
    else mem a

/-- Embeds `syscall_readlinkat` (system_calls.cpp, syscall 78).  bufsize above
the 16 KiB scratch buffer is -ENOMEM; then an installed filter_open that rejects
the path is -EPERM before any host call; otherwise the host readlinkat runs, a
positive result is copied out to the guest, and the result goes through
set_result_or_error.  Without an fd table: -ENOSYS. -/
def syscall_readlinkat (hreadlink : List Nat → Int) (linkData : Nat → Option Nat)
    (herr : Int) (m : MachineState) (vfd : Int) (g_path g_buf bufsize : Nat) :
    MachineState :=
  let path := guestPath m.mem g_path
  let go : MachineState :=
    let res := hreadlink path
    let m1 := { m with hostEvents := m.hostEvents ++ [HostCall.readlinkat path bufsize] }
    let m2 :=
      if 0 < res then { m1 with mem := copyToGuest m1.mem g_buf linkData res.toNat }
      else m1
    { m2 with result := set_result_or_error herr res }
  if 16384 < bufsize then { m with result := -ENOMEM }
  else if m.hasFds then
    match m.filterOpen with
    | some f => if f path then go else { m with result := -EPERM }
    | none => go
  else
    { m with result := -ENOSYS }

/-- Embeds `syscall_statx` (system_calls.cpp, syscall 291).  An installed
filter_stat that rejects the path is -EPERM before any host call; otherwise the
host statx runs, a zero result copies the 256-byte host structure out verbatim,
and the result goes through set_result_or_error.  Without an fd table: -ENOSYS. -/
def syscall_statx (hstatx : List Nat → Int) (stData : Nat → Option Nat)
    (herr : Int) (m : MachineState) (dirfd : Int) (g_path : Nat) (flags : Int)
    (mask : Nat) (buffer : Nat) : MachineState :=
  let path := guestPath m.mem g_path
  let go : MachineState :=
    let res := hstatx path
    let m1 := { m with hostEvents := m.hostEvents ++ [HostCall.statx path] }
    let m2 :=
      if res = 0 then { m1 with mem := copyToGuest m1.mem buffer stData 256 }
      else m1
    { m2 with result := set_result_or_error herr res }
  if m.hasFds then
    match m.filterStat with
    | some f => if f path then go else { m with result := -EPERM }
    | none => go
  else
    { m with result := -ENOSYS }

/-- A system-call handler receives the machine and mutates it. -/
def SyscallHandler : Type := MachineState → MachineState

/-- Embeds `syscall_stub_nosys` (system_calls.cpp): sets the result to -ENOSYS
and touches nothing else. -/
def syscall_stub_nosys : SyscallHandler :=
  fun m => { m with result := -ENOSYS }

/-- Modelled from the spec: the syscall table and ECALL dispatch live in
machine.hpp, not under src/.  The table maps syscall numbers to handlers and
"unassigned slots default to a stub that sets the result to -ENOSYS"
(syscall_stub_nosys above, which is under src/). -/
def dispatch (table : Nat → Option SyscallHandler) (num : Nat) : SyscallHandler :=
  fun m =>
    match table num with
    | some h => h m
    | none => syscall_stub_nosys m

/-! Concrete machine states used by the witnesses and counterexamples. -/

/-- Guest memory holding the six bytes of "hello\n" at addresses 0..5. -/
def helloMem : Nat → Option Nat :=
  fun a => [104, 101, 108, 108, 111, 10].get? a

/-- A minimal machine: no fd table, empty sink, "hello\n" mapped at address 0. -/
def helloState : MachineState :=
  { mem := helloMem, sink := [], result := 0, hasFds := false,
    permitFileWrite := false, permitFilesystem := false,
    filterOpen := none, filterIoctl := none, filterStat := none,
    heapBase := 0, brkMax := 0, mmapNext := 0, hostEvents := [] }

/-- Machine with the heap bookkeeping of the spec's brk scenario. -/
def brkState : MachineState :=
  { helloState with heapBase := 0x10000, brkMax := 0x1000 }

/-- Machine whose mmap free-pointer sits at the page-aligned address 0x20000. -/
def mmapState : MachineState :=
  { helloState with mmapNext := 0x20000 }

/-- Machine with an fd table and file writes permitted. -/
def fdState : MachineState :=
  { helloState with hasFds := true, permitFileWrite := true }

/-- Machine with an fd table, filesystem permitted, and all three filters
installed as constantly-rejecting predicates. -/
def filterState : MachineState :=
  { helloState with
    hasFds := true, permitFilesystem := true,
    filterOpen := some (fun _ => false), filterIoctl := some (fun _ => false),
    filterStat := some (fun _ => false) }

/-- An empty syscall table: every slot unassigned. -/
def emptyTable : Nat → Option SyscallHandler := fun _ => none

/-! Helper lemmas about the memory model. -/

lemma rangeBytes_split (mem : Nat → Option Nat) (addr n k : Nat) :
    rangeBytes mem addr (n + k)
      = rangeBytes mem addr n ++ rangeBytes mem (addr + n) k := by
  unfold rangeBytes
  rw [List.range_add, List.map_append, List.map_map]
  congr 1
  apply List.map_congr_left
  intro i _
  simp [Function.comp, Nat.add_assoc]

lemma pageSize_pos : 0 < pageSize := by
  unfold pageSize; omega

lemma pageSlicesAux_flatten (mem : Nat → Option Nat) :
    ∀ fuel addr len, len ≤ fuel →
      ((pageSlicesAux fuel addr len).map (fun s => rangeBytes mem s.1 s.2)).flatten
        = rangeBytes mem addr len := by
  intro fuel
  induction fuel with
  | zero =>
    intro addr len h
    have h0 : len = 0 := Nat.le_zero.mp h
    subst h0
    simp [pageSlicesAux, rangeBytes]
  | succ fuel ih =>
    intro addr len h
    by_cases h0 : len = 0
    · subst h0
      simp [pageSlicesAux, rangeBytes]
    · rw [pageSlicesAux, if_neg h0]
      have hmod : addr % pageSize < pageSize := Nat.mod_lt _ pageSize_pos
      have hn1 : 1 ≤ min len (pageSize - addr % pageSize) := by omega
      have hnle : min len (pageSize - addr % pageSize) ≤ len := Nat.min_le_left _ _
      rw [List.map_cons, List.flatten_cons]
      rw [ih (addr + min len (pageSize - addr % pageSize))
            (len - min len (pageSize - addr % pageSize)) (by omega)]
      have hsplit := rangeBytes_split mem addr
        (min len (pageSize - addr % pageSize))
        (len - min len (pageSize - addr % pageSize))
      rw [Nat.add_sub_cancel' hnle] at hsplit
      rw [hsplit]

lemma pageSlices_flatten (mem : Nat → Option Nat) (addr len : Nat) :
    ((pageSlices addr len).map (fun s => rangeBytes mem s.1 s.2)).flatten
      = rangeBytes mem addr len :=
  pageSlicesAux_flatten mem len addr len (Nat.le_refl len)

/-! Claim theorems. -/

/-- C1: a write syscall with fd 1 or fd 2 whose guest range is entirely mapped
readable sends exactly the len bytes of the range, in increasing guest-address
order, to the machine's print sink, and sets the result a0 to len; no other
machine state changes. -/
theorem C1_write_stdout (hw errnoOf : Nat → Int) (m : MachineState) (fd : Int)
    (addr len : Nat) (hfd : fd = 1 ∨ fd = 2)
    (hmap : rangeMapped m.mem addr len = true) :
    syscall_write hw errnoOf m fd addr len
      = { m with sink := m.sink ++ rangeBytes m.mem addr len,
                 result := Int.ofNat len } := by
  unfold syscall_write
  rw [if_pos hfd]
  unfold gather
  rw [if_pos hmap]
  simp only [pageSlices_flatten]

/-- C1 witness: write(1, "hello\n", 6) appends exactly 68 65 6C 6C 6F 0A to the
print sink and sets a0 = 6. -/
theorem C1_write_stdout_witness :
    rangeMapped helloState.mem 0 6 = true
    ∧ (syscall_write (fun _ => 0) (fun _ => 0) helloState 1 0 6).sink
        = [0x68, 0x65, 0x6C, 0x6C, 0x6F, 0x0A]
    ∧ (syscall_write (fun _ => 0) (fun _ => 0) helloState 1 0 6).result = 6 := by
  have h := C1_write_stdout (fun _ => 0) (fun _ => 0) helloState 1 0 6
    (Or.inl rfl) (by decide)
  refine ⟨by decide, ?_, ?_⟩
  · rw [h]; decide
  · rw [h]; decide

/-- C2: an ECALL whose syscall number has no assigned handler runs the default
stub, which sets a0 to -ENOSYS = -38 and changes no other machine state. -/
theorem C2_unknown_syscall (table : Nat → Option SyscallHandler) (num : Nat)
    (m : MachineState) (h : table num = none) :
    dispatch table num m = { m with result := -38 } := by
  unfold dispatch
  rw [h]
  rfl

/-- C2 witness: a7 = 999 on an empty table yields a0 = -38 and nothing else
changes. -/
theorem C2_unknown_syscall_witness :
    emptyTable 999 = none
    ∧ dispatch emptyTable 999 helloState = { helloState with result := -38 } :=
  ⟨rfl, C2_unknown_syscall emptyTable 999 helloState rfl⟩

/-- C3: brk(new_end) returns the clamp of new_end to
[heap_base, heap_base + BRK_MAX] — below the interval it returns heap_base,
above it heap_base + BRK_MAX — and never an error (the result is non-negative). -/
theorem C3_brk_clamp (m : MachineState) (new_end : Nat)
    (h : m.heapBase + m.brkMax < MOD) :
    (syscall_brk m new_end).result
        = Int.ofNat (max m.heapBase (min new_end (m.heapBase + m.brkMax)))
    ∧ 0 ≤ (syscall_brk m new_end).result := by
  unfold syscall_brk
  rw [Nat.mod_eq_of_lt h]
  constructor
  · simp only
    split_ifs <;> (congr 1; omega)
  · simp only
    split_ifs <;> exact Int.ofNat_nonneg _

/-- C3 witness: with heap_base = 0x10000 and BRK_MAX = 0x1000, brk(0x1000)
returns 0x10000 and brk(0x20000) returns 0x11000. -/
theorem C3_brk_clamp_witness :
    brkState.heapBase + brkState.brkMax < MOD
    ∧ (syscall_brk brkState 0x1000).result = 0x10000
    ∧ (syscall_brk brkState 0x20000).result = 0x11000 := by
  have h1 := (C3_brk_clamp brkState 0x1000 (by decide)).1
  have h2 := (C3_brk_clamp brkState 0x20000 (by decide)).1
  refine ⟨by decide, ?_, ?_⟩
  · rw [h1]; decide
  · rw [h2]; decide

/-- C4 counterexample: length 0 is page-aligned, yet two consecutive
mmap(0, 0) calls both return the same address (the handler advances mmap_next
by the length, here 0), so the returned addresses are not strictly increasing
as the claim states for every page-aligned length. -/
theorem C4_mmap_counterexample :
    (0 : Nat) % pageSize = 0
    ∧ (syscall_mmap mmapState 0 0 0 0).result
        = (syscall_mmap (syscall_mmap mmapState 0 0 0 0) 0 0 0 0).result
    ∧ ¬ (syscall_mmap mmapState 0 0 0 0).result
        < (syscall_mmap (syscall_mmap mmapState 0 0 0 0) 0 0 0 0).result := by
  refine ⟨by decide, ?_, ?_⟩ <;> decide

/-- C4 amended: for page-aligned addr and length, a call with addr = 0 or
addr = mmap_next returns the current mmap_next and advances mmap_next by the
length; a non-zero addr below mmap_next fails with -1; and — provided each
length is positive and the additions do not wrap the 64-bit address space —
consecutive mmap(0, L) calls return strictly increasing, page-aligned addresses
separated by the lengths. -/
theorem C4_mmap_amended (m : MachineState) (addr len lenA lenB : Nat)
    (prot flags : Int) :
    (addr % pageSize = 0 → len % pageSize = 0 → (addr = 0 ∨ addr = m.mmapNext) →
      syscall_mmap m addr len prot flags
        = { m with result := Int.ofNat m.mmapNext,
                   mmapNext := (m.mmapNext + len) % MOD })
    ∧ (addr % pageSize = 0 → len % pageSize = 0 → addr ≠ 0 → addr < m.mmapNext →
      syscall_mmap m addr len prot flags = { m with result := -1 })
    ∧ (lenA % pageSize = 0 → lenB % pageSize = 0 → 0 < lenA →
      m.mmapNext % pageSize = 0 → m.mmapNext + lenA < MOD →
      (syscall_mmap m 0 lenA prot flags).result
          < (syscall_mmap (syscall_mmap m 0 lenA prot flags) 0 lenB prot flags).result
      ∧ (syscall_mmap (syscall_mmap m 0 lenA prot flags) 0 lenB prot flags).result
          = (syscall_mmap m 0 lenA prot flags).result + Int.ofNat lenA
      ∧ (syscall_mmap m 0 lenA prot flags).result.toNat % pageSize = 0
      ∧ (syscall_mmap (syscall_mmap m 0 lenA prot flags) 0 lenB
            prot flags).result.toNat % pageSize = 0) := by
  refine ⟨?_, ?_, ?_⟩
  · intro ha hl hhint
    unfold syscall_mmap
    rw [if_neg (by push_neg; exact ⟨ha, hl⟩), if_pos hhint]
  · intro ha hl hne hlt
    unfold syscall_mmap
    rw [if_neg (by push_neg; exact ⟨ha, hl⟩),
        if_neg (by push_neg; exact ⟨hne, fun he => absurd he.symm (Nat.ne_of_gt hlt)⟩),
        if_pos hlt]
  · intro hA hB hpos halign hfit
    have h1 : syscall_mmap m 0 lenA prot flags
        = { m with result := Int.ofNat m.mmapNext,
                   mmapNext := (m.mmapNext + lenA) % MOD } := by
      unfold syscall_mmap
      rw [if_neg (by push_neg; exact ⟨Nat.zero_mod _, hA⟩), if_pos (Or.inl rfl)]
    rw [h1]
    have h2 : syscall_mmap
        { m with result := Int.ofNat m.mmapNext,
                 mmapNext := (m.mmapNext + lenA) % MOD } 0 lenB prot flags
        = { m with result := Int.ofNat ((m.mmapNext + lenA) % MOD),
                   mmapNext := (((m.mmapNext + lenA) % MOD) + lenB) % MOD } := by
      unfold syscall_mmap
      rw [if_neg (by push_neg; exact ⟨Nat.zero_mod _, hB⟩), if_pos (Or.inl rfl)]
    rw [h2]
    simp only [Nat.mod_eq_of_lt hfit]
    refine ⟨Int.ofNat_lt.mpr (by omega), Int.ofNat_add _ _, ?_, ?_⟩
    · show m.mmapNext % pageSize = 0
      exact halign
    · show (m.mmapNext + lenA) % pageSize = 0
      rw [Nat.add_mod, halign, hA]
      rfl

/-- C4 amended witness: from mmap_next = 0x20000, mmap(0, 0x1000) returns
0x20000 and a following mmap(0, 0x2000) returns 0x21000 = 0x20000 + 0x1000. -/
theorem C4_mmap_amended_witness :
    ((0x1000 : Nat) % pageSize = 0 ∧ (0x2000 : Nat) % pageSize = 0
      ∧ (0 : Nat) < 0x1000 ∧ mmapState.mmapNext % pageSize = 0
      ∧ mmapState.mmapNext + 0x1000 < MOD)
    ∧ (syscall_mmap mmapState 0 0x1000 0 0).result
        < (syscall_mmap (syscall_mmap mmapState 0 0x1000 0 0) 0 0x2000 0 0).result
    ∧ (syscall_mmap (syscall_mmap mmapState 0 0x1000 0 0) 0 0x2000 0 0).result
        = (syscall_mmap mmapState 0 0x1000 0 0).result + Int.ofNat 0x1000 := by
  have h := (C4_mmap_amended mmapState 0 0 0x1000 0x2000 0 0).2.2
    (by decide) (by decide) (by decide) (by decide) (by decide)
  exact ⟨⟨by decide, by decide, by decide, by decide, by decide⟩, h.1, h.2.1⟩

/-- C5: mremap succeeds exactly when old_addr + old_size (in wrapped 64-bit
address arithmetic, as the handler computes it) equals the current mmap_next:
then it returns old_addr and moves mmap_next to old_addr + new_size; in every
other case it fails with -1 and leaves mmap_next alone. -/
theorem C5_mremap_extend_last (m : MachineState)
    (old_addr old_size new_size : Nat) (flags : Int) :
    ((old_addr + old_size) % MOD = m.mmapNext →
      syscall_mremap m old_addr old_size new_size flags
        = { m with mmapNext := (old_addr + new_size) % MOD,
                   result := Int.ofNat old_addr })
    ∧ ((old_addr + old_size) % MOD ≠ m.mmapNext →
      syscall_mremap m old_addr old_size new_size flags
        = { m with result := -1 }) := by
  constructor
  · intro h
    unfold syscall_mremap
    rw [if_pos h]
  · intro h
    unfold syscall_mremap
    rw [if_neg h]

/-- C5 witness: with mmap_next = 0x20000, mremap(0x1F000, 0x1000, 0x3000)
returns 0x1F000 and moves mmap_next to 0x22000, while
mremap(0x10000, 0x1000, 0x3000) fails with -1. -/
theorem C5_mremap_extend_last_witness :
    ((0x1F000 + 0x1000) % MOD = mmapState.mmapNext
      ∧ syscall_mremap mmapState 0x1F000 0x1000 0x3000 0
          = { mmapState with mmapNext := (0x1F000 + 0x3000) % MOD,
                             result := Int.ofNat 0x1F000 })
    ∧ ((0x10000 + 0x1000) % MOD ≠ mmapState.mmapNext
      ∧ syscall_mremap mmapState 0x10000 0x1000 0x3000 0
          = { mmapState with result := -1 }) :=
  ⟨⟨by decide,
    (C5_mremap_extend_last mmapState 0x1F000 0x1000 0x3000 0).1 (by decide)⟩,
   ⟨by decide,
    (C5_mremap_extend_last mmapState 0x10000 0x1000 0x3000 0).2 (by decide)⟩⟩

/-- C6: every serviced read syscall — fd 0 always, and fd ≥ 3 when a
file-descriptor table is present — sets the result a0 to the full requested
length, whatever bytes the stdin source or the host read actually supplied
(the supply oracle is universally quantified). -/
theorem C6_read_full_length (supply : Nat → Option Nat) (m : MachineState)
    (fd : Int) (addr len : Nat)
    (h : fd = 0 ∨ (3 ≤ fd ∧ m.hasFds = true)) :
    (syscall_read supply m fd addr len).result = Int.ofNat len := by
  unfold syscall_read
  rcases h with h0 | ⟨h3, hf⟩
  · rw [if_pos h0]
  · rw [if_neg (by omega), hf]
    simp

/-- C6 witness: a 16-byte read on fd 0 from a source that supplied nothing at
all still reports a0 = 16. -/
theorem C6_read_full_length_witness :
    (syscall_read (fun _ => none) helloState 0 0 16).result = Int.ofNat 16 :=
  C6_read_full_length (fun _ => none) helloState 0 0 16 (Or.inl rfl)

/-- C9: a read syscall with fd different from 0 on a machine without a
file-descriptor table sets a0 to -EBADF = -9 and changes nothing else. -/
theorem C9_read_badf (supply : Nat → Option Nat) (m : MachineState) (fd : Int)
    (addr len : Nat) (h0 : fd ≠ 0) (hf : m.hasFds = false) :
    syscall_read supply m fd addr len = { m with result := -9 } := by
  unfold syscall_read
  rw [if_neg h0, hf]
  rfl

/-- C9 witness: read(42, buf, 16) with no fd table yields a0 = -9. -/
theorem C9_read_badf_witness :
    (42 : Int) ≠ 0 ∧ helloState.hasFds = false
    ∧ syscall_read (fun _ => none) helloState 42 0 16
        = { helloState with result := -9 } :=
  ⟨by decide, rfl, C9_read_badf (fun _ => none) helloState 42 0 16 (by decide) rfl⟩

/-- C7 counterexample: on a machine with an fd table and permit_file_write set,
writev on vfd 3 with a valid count sets a0 to -EBADF = -9, while write (syscall
64) on the same vfd performs the host write and returns the bytes written (here
6, with a host that writes every slice in full) — so writev does not behave the
same as write on vfd ≥ 3. -/
theorem C7_writev_counterexample :
    fdState.hasFds = true ∧ fdState.permitFileWrite = true
    ∧ (syscall_writev fdState 3 0x100 1).result = -9
    ∧ (syscall_write (fun _ => 6) (fun _ => 0) fdState 3 0 6).result = 6
    ∧ ((-9 : Int) ≠ 6) := by
  refine ⟨rfl, rfl, ?_, ?_, by decide⟩ <;> decide

/-- C7 amended: for every writev syscall with an in-range iovec count and fd
other than 1 and 2 — in particular every vfd ≥ 3, even with an fd table present
and permit_file_write set — the handler sets the result to -EBADF and changes
nothing else; the vfd ≥ 3 host-write path of write is not implemented in
writev. -/
theorem C7_writev_no_file_path (m : MachineState) (fd : Int) (iov_g : Nat)
    (count : Int) (hc : ¬ (count < 0 ∨ 256 < count))
    (h1 : fd ≠ 1) (h2 : fd ≠ 2) :
    syscall_writev m fd iov_g count = { m with result := -EBADF } := by
  unfold syscall_writev
  rw [if_neg hc, if_neg (by push_neg; exact ⟨h1, h2⟩)]

/-- C7 amended witness: writev(3, iov, 1) on the permissive fd-table machine
sets a0 = -EBADF. -/
theorem C7_writev_no_file_path_witness :
    ¬ ((1 : Int) < 0 ∨ 256 < (1 : Int))
    ∧ syscall_writev fdState 3 0x100 1 = { fdState with result := -EBADF } :=
  ⟨by decide,
   C7_writev_no_file_path fdState 3 0x100 1 (by decide) (by decide) (by decide)⟩

/-- C8: a writev syscall whose iovec count is negative or greater than 256 sets
the result to -EINVAL, whatever the fd. -/
theorem C8_writev_einval (m : MachineState) (fd : Int) (iov_g : Nat)
    (count : Int) (h : count < 0 ∨ 256 < count) :
    syscall_writev m fd iov_g count = { m with result := -EINVAL } := by
  unfold syscall_writev
  rw [if_pos h]

/-- C8 witness: writev on fd 1 with count 257 yields a0 = -EINVAL, and with
count -1 as well. -/
theorem C8_writev_einval_witness :
    (((257 : Int) < 0 ∨ 256 < (257 : Int))
      ∧ syscall_writev helloState 1 0x100 257 = { helloState with result := -EINVAL })
    ∧ (((-1 : Int) < 0 ∨ 256 < (-1 : Int))
      ∧ syscall_writev helloState 1 0x100 (-1) = { helloState with result := -EINVAL }) :=
  ⟨⟨by decide, C8_writev_einval helloState 1 0x100 257 (by decide)⟩,
   ⟨by decide, C8_writev_einval helloState 1 0x100 (-1) (by decide)⟩⟩

/-- C10: whenever an installed filter predicate rejects a request that reaches
it — filter_open for openat (fd table present and filesystem permitted) or for
readlinkat (fd table present, bufsize within the scratch buffer), filter_ioctl
for ioctl (fd table present), filter_stat for statx (fd table present) — the
handler sets the result to -EPERM and performs no host call and no other state
change. -/
theorem C10_filters_eperm (m : MachineState)
    (f : List Nat → Bool) (fi : Nat → Bool) (fs : List Nat → Bool)
    (hopen : List Nat → Int) (vfdOf : Int → Int) (hioctl : Nat → Int)
    (hreadlink : List Nat → Int) (linkData : Nat → Option Nat)
    (hstatx : List Nat → Int) (stData : Nat → Option Nat) (herr : Int)
    (dirfd vfd : Int) (g_path g_buf bufsize : Nat) (flags : Int)
    (req mask buffer : Nat) :
    (m.hasFds = true → m.permitFilesystem = true → m.filterOpen = some f →
      f (guestPath m.mem g_path) = false →
      syscall_openat hopen herr vfdOf m dirfd g_path flags
        = { m with result := -EPERM })
    ∧ (m.hasFds = true → m.filterIoctl = some fi → fi req = false →
      syscall_ioctl hioctl herr m vfd req = { m with result := -EPERM })
    ∧ (bufsize ≤ 16384 → m.hasFds = true → m.filterOpen = some f →
      f (guestPath m.mem g_path) = false →
      syscall_readlinkat hreadlink linkData herr m vfd g_path g_buf bufsize
        = { m with result := -EPERM })
    ∧ (m.hasFds = true → m.filterStat = some fs →
      fs (guestPath m.mem g_path) = false →
      syscall_statx hstatx stData herr m dirfd g_path flags mask buffer
        = { m with result := -EPERM }) := by
  refine ⟨?_, ?_, ?_, ?_⟩
  · intro hfds hperm hfilter hrej
    unfold syscall_openat
    rw [hfds, hperm, hfilter]
    simp only [Bool.and_self, if_true, hrej, Bool.false_eq_true, if_false]
  · intro hfds hfilter hrej
    unfold syscall_ioctl
    rw [hfds, hfilter]
    simp only [if_true, hrej, Bool.false_eq_true, if_false]
  · intro hbuf hfds hfilter hrej
    unfold syscall_readlinkat
    rw [if_neg (by omega), hfds, hfilter]
    simp only [if_true, hrej, Bool.false_eq_true, if_false]
  · intro hfds hfilter hrej
    unfold syscall_statx
    rw [hfds, hfilter]
    simp only [if_true, hrej, Bool.false_eq_true, if_false]

/-- C10 witness: on a machine whose three filters reject everything, openat,
ioctl, readlinkat and statx all set a0 = -EPERM and perform no host call. -/
theorem C10_filters_eperm_witness :
    syscall_openat (fun _ => 7) 2 (fun _ => 3) filterState 0 0 0
        = { filterState with result := -EPERM }
    ∧ syscall_ioctl (fun _ => 0) 2 filterState 3 0x5401
        = { filterState with result := -EPERM }
    ∧ syscall_readlinkat (fun _ => 5) (fun _ => none) 2 filterState 3 0 0x200 64
        = { filterState with result := -EPERM }
    ∧ syscall_statx (fun _ => 0) (fun _ => none) 2 filterState 0 0 0 0 0x300
        = { filterState with result := -EPERM } := by
  have h := C10_filters_eperm filterState (fun _ => false) (fun _ => false)
    (fun _ => false) (fun _ => 7) (fun _ => 3) (fun _ => 0) (fun _ => 5)
    (fun _ => none) (fun _ => 0) (fun _ => none) 2 0 3 0 0x200 64 0 0x5401 0 0x300
  exact ⟨h.1 rfl rfl rfl rfl, h.2.1 rfl rfl rfl,
         h.2.2.1 (by decide) rfl rfl rfl, h.2.2.2 rfl rfl rfl⟩

end LibRiscv
